import Mathlib

/-!
# Verification of the `ndstrim` core (checksum, header validation, trim-size computation)

Shallow embedding of `src/crc.rs` and `src/nds.rs`.

Bytes are modelled as `Nat` values; the `u8` width is made explicit with `% 256`
where a byte enters 16-bit arithmetic, and 16-bit values stay below `2 ^ 16` by
construction (proved below).  File I/O is modelled by explicit state passing on
a `FileState` record holding the file's byte contents and the read position.
To express claims about I/O-error propagation, a `FileState` also carries a
fault oracle: a list consumed one entry per read, where `some k` makes the next
read fail with the `io::ErrorKind`-like value `k` and `none` lets it proceed.
A fault-free file has `faults = []`.
-/

/-- Body of the inner loop of checksum in crc.rs: compute the carry from the low bit,
shift right by one, and XOR the polynomial `0xA001` when the carry was set. -/
def crcStep (crc : Nat) : Nat :=
  let carry := crc &&& 0x1 > 0
  let shifted := crc >>> 1
  if carry then shifted ^^^ 0xa001 else shifted

/-- The eight-round loop of checksum in crc.rs: iterate `crcStep`. -/
def crcRounds : Nat → Nat → Nat
  | 0, crc => crc
  | n + 1, crc => crcRounds n (crcStep crc)

/-- Function checksum of crc.rs: accumulator starts at `0xFFFF`; each byte is XORed
into the accumulator (`byte % 256` records that the byte is a `u8`), followed
by eight `crcStep` rounds. -/
def checksum (data : List Nat) : Nat :=
  data.foldl (fun crc byte => crcRounds 8 (crc ^^^ byte % 256)) 0xffff

/-- From the spec's words (§4.1), one round: if the low bit of the accumulator
is set, shift right by one and XOR the result with `0xA001`; otherwise shift
right by one without XOR. -/
def crcStepSpec (acc : Nat) : Nat :=
  if acc % 2 = 1 then (acc >>> 1) ^^^ 0xa001 else acc >>> 1

/-- From the spec's words (§4.1): eight iterations of `crcStepSpec`. -/
def crcRoundsSpec : Nat → Nat → Nat
  | 0, acc => acc
  | n + 1, acc => crcRoundsSpec n (crcStepSpec acc)

/-- From the spec's words (§4.1): recursion over the byte sequence. -/
def checksumSpecGo : Nat → List Nat → Nat
  | acc, [] => acc
  | acc, b :: rest => checksumSpecGo (crcRoundsSpec 8 (acc ^^^ b % 256)) rest

/-- Independent rendering of the spec's checksum contract (§4.1): initialize
an accumulator to `0xFFFF`; for each byte, XOR it into the low 8 bits; then
perform eight shift rounds; return the final accumulator. -/
def checksumSpec (data : List Nat) : Nat :=
  checksumSpecGo 0xffff data

/-- Strict evaluator for the checksum fold: forces the accumulator to a
numeral at every step (via the `Nat` pattern match), so that evaluating it on
concrete data inside proofs needs only shallow recursion; proved equal to
`checksum` below. -/
def checksumStrict (acc : Nat) : List Nat → Nat
  | [] => acc
  | b :: rest =>
    match crcRounds 8 (acc ^^^ b % 256) with
    | 0 => checksumStrict 0 rest
    | Nat.succ m => checksumStrict (Nat.succ m) rest


instance exceptDecEq {ε α : Type} [DecidableEq ε] [DecidableEq α] :
    DecidableEq (Except ε α) := fun x y =>
  match x, y with
  | Except.ok a, Except.ok b =>
    if h : a = b then Decidable.isTrue (by rw [h])
    else Decidable.isFalse (fun hc => by injection hc; contradiction)
  | Except.error a, Except.error b =>
    if h : a = b then Decidable.isTrue (by rw [h])
    else Decidable.isFalse (fun hc => by injection hc; contradiction)
  | Except.ok _, Except.error _ => Decidable.isFalse (fun hc => Except.noConfusion hc)
  | Except.error _, Except.ok _ => Decidable.isFalse (fun hc => Except.noConfusion hc)


/-- Kinds of low-level I/O errors, mirroring the part of `std::io::ErrorKind`
the program inspects: end-of-file is distinguished, every other kind is
collapsed into `other` with an uninterpreted code. -/
inductive IOErrorKind where
  | unexpectedEof : IOErrorKind
  | other : Nat → IOErrorKind
deriving DecidableEq

/-- State of an open file: its on-disk byte contents, the current read
position, and a fault oracle for injected I/O errors (one entry consumed per
read attempt; `some k` fails the next read with kind `k`). -/
structure FileState where
  contents : List Nat
  pos : Nat
  faults : List (Option IOErrorKind)
deriving DecidableEq

/-- Fault scheduled for the next read, if any. -/
def headFault : List (Option IOErrorKind) → Option IOErrorKind
  | some k :: _ => some k
  | _ => none


/-- Model of `Read::read_exact` for a buffer of `n` bytes: fails with the
scheduled fault if one is injected; otherwise fails with `UnexpectedEof` when
fewer than `n` bytes remain, and on success returns the `n` bytes at the
current position and advances the position. -/
def readExact (f : FileState) (n : Nat) : Except IOErrorKind (List Nat × FileState) :=
  match headFault f.faults with
  | some k => Except.error k
  | none =>
    if f.pos + n ≤ f.contents.length then
      Except.ok ((f.contents.drop f.pos).take n,
        { f with pos := f.pos + n, faults := f.faults.tail })
    else
      Except.error IOErrorKind.unexpectedEof

/-- Model of `Seek::seek(SeekFrom::Start(offset))`. -/
def seek (f : FileState) (offset : Nat) : FileState :=
  { f with pos := offset }

/-- Model of `File::set_len(n)`: truncates to `n` bytes, or zero-extends when
`n` exceeds the current length. -/
def setLen (contents : List Nat) (n : Nat) : List Nat :=
  contents.take n ++ List.replicate (n - contents.length) 0

/-- The error enum of `nds.rs` (`Error`): I/O error, bincode deserialization
failure, malformed header, already-trimmed file. -/
inductive Error where
  | ioErr : IOErrorKind → Error
  | deserialization : Error
  | badHeader : Error
  | alreadyTrimmed : Error
deriving DecidableEq

/-- The `NtrTwlHeader` struct of `nds.rs`, with the same fields in the same
order; byte arrays become `List Nat` and the little-endian integers `Nat`. -/
structure NtrTwlHeader where
  title : List Nat
  gamecode : List Nat
  makercode : List Nat
  unitcode : Nat
  ignored0 : List Nat
  ntr_rom_size : Nat
  header_size : Nat
  ignored1 : List Nat
  nintendo_logo : List Nat
  nintendo_logo_crc : Nat
  header_crc : Nat
  ignored2 : List Nat
  ignored3 : List Nat
  ntr_twl_rom_size : Nat
  ignored4 : List Nat
deriving DecidableEq

/-- Contiguous byte range `[off, off + len)` of a buffer. -/
def bufSlice (buf : List Nat) (off len : Nat) : List Nat :=
  (buf.drop off).take len

/-- Little-endian unsigned integer formed by `len` bytes starting at `off`. -/
def readLE (buf : List Nat) : Nat → Nat → Nat
  | _, 0 => 0
  | off, len + 1 => buf.getD off 0 % 256 + 256 * readLE buf (off + 1) len

/-- Field extraction performed by `bincode::deserialize` on a header buffer:
each field is read at its fixed little-endian offset (bincode's legacy config:
fixed-width integers, little-endian, fields in declaration order). -/
def headerOf (buf : List Nat) : NtrTwlHeader where
  title := bufSlice buf 0 12
  gamecode := bufSlice buf 12 4
  makercode := bufSlice buf 16 2
  unitcode := buf.getD 18 0 % 256
  ignored0 := bufSlice buf 19 109
  ntr_rom_size := readLE buf 128 4
  header_size := readLE buf 132 4
  ignored1 := bufSlice buf 136 56
  nintendo_logo := bufSlice buf 192 156
  nintendo_logo_crc := readLE buf 348 2
  header_crc := readLE buf 350 2
  ignored2 := bufSlice buf 352 32
  ignored3 := bufSlice buf 384 144
  ntr_twl_rom_size := readLE buf 528 4
  ignored4 := bufSlice buf 532 3564

/-- Model of `bincode::deserialize::<NtrTwlHeader>`: needs the full 4096-byte
record, otherwise fails (in `from_file` the buffer always has exactly 4096
bytes, so the failure branch is unreachable there — proved below). -/
def deserializeHeader (buf : List Nat) : Except Error NtrTwlHeader :=
  if 4096 ≤ buf.length then Except.ok (headerOf buf)
  else Except.error Error.deserialization

/-- Method `NtrTwlHeader::is_logo_valid` of `nds.rs`: the checksum of the
156-byte logo region must equal the fixed constant `0xCF56`. -/
def NtrTwlHeader.is_logo_valid (h : NtrTwlHeader) : Bool :=
  decide (checksum h.nintendo_logo = 0xcf56)

/-- Method `NtrTwlHeader::is_ntr_only` of `nds.rs`. -/
def NtrTwlHeader.is_ntr_only (h : NtrTwlHeader) : Bool :=
  decide (h.unitcode = 0x00)

/-- Method `NtrTwlHeader::from_file` of `nds.rs`: read exactly one header's
worth of bytes (4096), checksum bytes `[0, 0x15E)`, deserialize, and reject
with `BadHeader` unless the stored `header_crc` matches the computed checksum
and the logo region checksums to the fixed constant. -/
def NtrTwlHeader.from_file (f : FileState) : Except Error (NtrTwlHeader × FileState) :=
  match readExact f 4096 with
  | Except.error k => Except.error (Error.ioErr k)
  | Except.ok (buf, f1) =>
    let crc := checksum (bufSlice buf 0 0x15e)
    match deserializeHeader buf with
    | Except.error e => Except.error e
    | Except.ok header =>
      if header.header_crc ≠ crc ∨ header.is_logo_valid = false then
        Except.error Error.badHeader
      else
        Except.ok (header, f1)

/-- The `NdsFile` struct of `nds.rs`: open handle, on-disk size at open time,
computed trimmed size. -/
structure NdsFile where
  handle : FileState
  file_size : Nat
  trimmed_size : Nat
deriving DecidableEq

/-- Method `NdsFile::has_cert` of `nds.rs`: seek to `offset`, read 2 bytes,
and compare them with the RSA certificate marker `[0x61, 0x63]` (ASCII "ac"). -/
def NdsFile.has_cert (f : FileState) (offset : Nat) : Except IOErrorKind (Bool × FileState) :=
  match readExact (seek f offset) 2 with
  | Except.error k => Except.error k
  | Except.ok (buf, f1) => Except.ok (decide (buf = [0x61, 0x63]), f1)

/-- Method `NdsFile::compute_trimmed_size` of `nds.rs`: for a non-NTR-only
(dual-mode) header return `ntr_twl_rom_size` verbatim with no I/O; otherwise
probe for the certificate marker at offset `ntr_rom_size`, mapping an
`UnexpectedEof` probe failure to `AlreadyTrimmed` and any other I/O error kind
to `Io`, and add `0x88` to the trimmed size when the marker is present. -/
def NdsFile.compute_trimmed_size (f : FileState) (header : NtrTwlHeader) :
    Except Error (Nat × FileState) :=
  if header.is_ntr_only = false then
    Except.ok (header.ntr_twl_rom_size, f)
  else
    let trimsize := header.ntr_rom_size
    match NdsFile.has_cert f trimsize with
    | Except.error IOErrorKind.unexpectedEof => Except.error Error.alreadyTrimmed
    | Except.error k => Except.error (Error.ioErr k)
    | Except.ok (hc, f1) =>
      Except.ok (if hc then trimsize + 0x88 else trimsize, f1)

/-- Method `NdsFile::open` of `nds.rs`: load and verify the header, record the
on-disk size, compute the trimmed size, and fail with `AlreadyTrimmed` when
the on-disk size does not exceed the trimmed size. -/
def NdsFile.openFile (f0 : FileState) : Except Error NdsFile :=
  match NtrTwlHeader.from_file f0 with
  | Except.error e => Except.error e
  | Except.ok (header, f1) =>
    let fsz := f1.contents.length
    match NdsFile.compute_trimmed_size f1 header with
    | Except.error e => Except.error e
    | Except.ok (tsz, f2) =>
      if fsz ≤ tsz then Except.error Error.alreadyTrimmed
      else Except.ok { handle := f2, file_size := fsz, trimmed_size := tsz }

/-- Method `NdsFile::trim` of `nds.rs`: `set_len(trimmed_size)` on the
underlying file; the struct's recorded sizes are not touched. -/
def NdsFile.trim (nds : NdsFile) : Except Error NdsFile :=
  Except.ok { nds with
    handle := { nds.handle with contents := setLen nds.handle.contents nds.trimmed_size } }

/-- Method `NdsFile::trim_with_name` of `nds.rs`: seek the source back to the
start, then copy at most `trimmed_size` bytes (`Read::take`) into the freshly
created destination file, whose final contents the model returns. -/
def NdsFile.trim_with_name (nds : NdsFile) : Except Error (List Nat × NdsFile) :=
  let f1 := seek nds.handle 0
  let out := (f1.contents.drop f1.pos).take nds.trimmed_size
  Except.ok (out, { nds with handle := { f1 with pos := f1.pos + out.length } })

/-- Method `NdsFile::trim` of `nds.rs` with the fallible `set_len` syscall
made explicit: the environment's outcome for the `set_len` call is passed as
a parameter (`some k` = the syscall fails with kind `k`, converted to
`Error::Io` by the `?` operator; `none` = it succeeds).  `NdsFile.trim` is
the fault-free instance (proved below). -/
def NdsFile.trimFull (nds : NdsFile) (setLenOutcome : Option IOErrorKind) :
    Except Error NdsFile :=
  match setLenOutcome with
  | some k => Except.error (Error.ioErr k)
  | none =>
    Except.ok { nds with
      handle := { nds.handle with contents := setLen nds.handle.contents nds.trimmed_size } }

/-- Method `NdsFile::trim_with_name` of `nds.rs` with the fallible
`File::create`, `seek` and `io::copy` calls made explicit: the environment's
outcome for each call is a parameter, in source order; every failure is
converted to `Error::Io` by the `?` operator.  `NdsFile.trim_with_name` is
the fault-free instance (proved below). -/
def NdsFile.trim_with_nameFull (nds : NdsFile)
    (createOutcome seekOutcome copyOutcome : Option IOErrorKind) :
    Except Error (List Nat × NdsFile) :=
  match createOutcome with
  | some k => Except.error (Error.ioErr k)
  | none =>
    match seekOutcome with
    | some k => Except.error (Error.ioErr k)
    | none =>
      match copyOutcome with
      | some k => Except.error (Error.ioErr k)
      | none =>
        let f1 := seek nds.handle 0
        let out := (f1.contents.drop f1.pos).take nds.trimmed_size
        Except.ok (out, { nds with handle := { f1 with pos := f1.pos + out.length } })

/-- Method `NdsFile::open` of `nds.rs` with the fallible `File::options().
open` and `metadata` calls made explicit as environment outcomes, in source
order (the open syscall before the header read, `metadata` between the header
read and the trimmed-size computation); read failures are injected through
the file state's fault oracle as before.  `NdsFile.openFile` is the
fault-free instance (proved below). -/
def NdsFile.openFull (f0 : FileState) (openOutcome metadataOutcome : Option IOErrorKind) :
    Except Error NdsFile :=
  match openOutcome with
  | some k => Except.error (Error.ioErr k)
  | none =>
    match NtrTwlHeader.from_file f0 with
    | Except.error e => Except.error e
    | Except.ok (header, f1) =>
      match metadataOutcome with
      | some k => Except.error (Error.ioErr k)
      | none =>
        let fsz := f1.contents.length
        match NdsFile.compute_trimmed_size f1 header with
        | Except.error e => Except.error e
        | Except.ok (tsz, f2) =>
          if fsz ≤ tsz then Except.error Error.alreadyTrimmed
          else Except.ok { handle := f2, file_size := fsz, trimmed_size := tsz }

/-- A freshly opened file on a disk image `bytes`: position 0, no injected
faults. -/
def mkFile (bytes : List Nat) : FileState :=
  { contents := bytes, pos := 0, faults := [] }

/-- A header record with `unitcode = 0` (legacy-only) for concrete checks;
only the fields `compute_trimmed_size` consults are relevant. -/
def sampleLegacyHeader : NtrTwlHeader where
  title := []
  gamecode := []
  makercode := []
  unitcode := 0
  ignored0 := []
  ntr_rom_size := 0
  header_size := 0
  ignored1 := []
  nintendo_logo := []
  nintendo_logo_crc := 0
  header_crc := 0
  ignored2 := []
  ignored3 := []
  ntr_twl_rom_size := 0
  ignored4 := []

/-- A header record with `unitcode = 1` (dual-mode) for concrete checks. -/
def sampleDualHeader : NtrTwlHeader where
  title := []
  gamecode := []
  makercode := []
  unitcode := 1
  ignored0 := []
  ntr_rom_size := 3
  header_size := 0
  ignored1 := []
  nintendo_logo := []
  nintendo_logo_crc := 0
  header_crc := 0
  ignored2 := []
  ignored3 := []
  ntr_twl_rom_size := 77
  ignored4 := []

/-- A 4096-byte all-zero header buffer (rejected: its checksums do not match). -/
def zeros4096 : List Nat := List.replicate 4096 0

/-- A 4096-byte header buffer that passes validation: `unitcode = 1`
(dual-mode), logo bytes at offsets 346/347 force the logo-region checksum to
`0xCF56`, bytes 350/351 store the little-endian checksum `0x326C` of the
first `0x15E` bytes, and byte 529 makes `ntr_twl_rom_size = 0x1000`. -/
def validBuf : List Nat :=
  ((((((List.replicate 4096 0).set 18 1).set 346 4).set 347 104).set 350 108).set
    351 50).set 529 16

/-- On-disk image for the open-succeeds check: the valid header plus 4 bytes
of padding, 4100 bytes in total. -/
def disk4100 : List Nat := validBuf ++ List.replicate 4 0

/-- The handle `open` produces on `disk4100`: position 4096 (after the header
read), on-disk size 4100, trimmed size 4096. -/
def ndsOpened : NdsFile where
  handle := { contents := disk4100, pos := 4096, faults := [] }
  file_size := 4100
  trimmed_size := 4096

attribute [irreducible] crcRoundsSpec


@[simp] theorem headFault_nil : headFault [] = none := rfl

@[simp] theorem headFault_cons_none (t : List (Option IOErrorKind)) :
    headFault (none :: t) = none := rfl

@[simp] theorem headFault_cons_some (k : IOErrorKind) (t : List (Option IOErrorKind)) :
    headFault (some k :: t) = some k := rfl

theorem crcStep_eq_spec (crc : Nat) : crcStep crc = crcStepSpec crc := by
  unfold crcStep crcStepSpec
  rcases Nat.even_or_odd crc with h | h
  · have h2 : crc % 2 = 0 := Nat.even_iff.mp h
    have hand : crc &&& 1 = 0 := by rw [Nat.and_one_is_mod, h2]
    simp [hand, h2]
  · have h2 : crc % 2 = 1 := Nat.odd_iff.mp h
    have hand : crc &&& 1 = 1 := by rw [Nat.and_one_is_mod, h2]
    simp [hand, h2]

theorem crcRounds_eq_spec (n crc : Nat) : crcRounds n crc = crcRoundsSpec n crc := by
  induction n generalizing crc with
  | zero => rw [crcRounds, crcRoundsSpec]
  | succ n ih => simp [crcRounds, crcRoundsSpec, crcStep_eq_spec, ih]

theorem checksumGo_eq_spec (data : List Nat) (acc : Nat) :
    data.foldl (fun crc byte => crcRounds 8 (crc ^^^ byte % 256)) acc =
      checksumSpecGo acc data := by
  induction data generalizing acc with
  | nil => rfl
  | cons b rest ih =>
    rw [List.foldl_cons, checksumSpecGo, crcRounds_eq_spec]
    exact ih _

theorem crcStep_lt (crc : Nat) (h : crc < 65536) : crcStep crc < 65536 := by
  have hs : crc >>> 1 < 65536 := by rw [Nat.shiftRight_one]; omega
  have hx : (crc >>> 1) ^^^ 0xa001 < 65536 := by
    have h1 : crc >>> 1 < 2 ^ 16 := by omega
    have h2 : (0xa001 : Nat) < 2 ^ 16 := by norm_num
    have := Nat.xor_lt_two_pow h1 h2
    omega
  unfold crcStep
  simp only [Nat.and_one_is_mod, gt_iff_lt]
  by_cases hc : 0 < crc % 2 <;> simp [hc, hs, hx]

theorem crcRounds_lt (n crc : Nat) (h : crc < 65536) : crcRounds n crc < 65536 := by
  induction n generalizing crc with
  | zero => simpa [crcRounds] using h
  | succ n ih => exact ih _ (crcStep_lt _ h)

theorem checksum_aux_lt (data : List Nat) (acc : Nat) (h : acc < 65536) :
    data.foldl (fun crc byte => crcRounds 8 (crc ^^^ byte % 256)) acc < 65536 := by
  induction data generalizing acc with
  | nil => simpa using h
  | cons b rest ih =>
    refine ih _ (crcRounds_lt _ _ ?_)
    have hb : b % 256 < 2 ^ 16 := by
      have : b % 256 < 256 := Nat.mod_lt _ (by norm_num)
      omega
    have ha : acc < 2 ^ 16 := by omega
    have := Nat.xor_lt_two_pow ha hb
    omega

theorem checksumStrict_eq (l : List Nat) (acc : Nat) :
    checksumStrict acc l =
      l.foldl (fun crc byte => crcRounds 8 (crc ^^^ byte % 256)) acc := by
  induction l generalizing acc with
  | nil => rfl
  | cons b rest ih =>
    rw [List.foldl_cons]
    unfold checksumStrict
    rcases h : crcRounds 8 (acc ^^^ b % 256) with _ | m
    · exact ih 0
    · exact ih (Nat.succ m)

theorem checksum_eq_strict (l : List Nat) : checksum l = checksumStrict 0xffff l :=
  (checksumStrict_eq l 0xffff).symm

theorem readExact_ok_iff (f : FileState) (n : Nat) (buf : List Nat) (f1 : FileState) :
    readExact f n = Except.ok (buf, f1) ↔
      headFault f.faults = none ∧ f.pos + n ≤ f.contents.length ∧
        buf = (f.contents.drop f.pos).take n ∧
        f1 = { f with pos := f.pos + n, faults := f.faults.tail } := by
  unfold readExact
  rcases hh : headFault f.faults with _ | k
  · by_cases hle : f.pos + n ≤ f.contents.length
    · simp [hle]
      constructor
      · intro h
        exact ⟨h.1.symm, h.2.symm⟩
      · intro h
        exact ⟨h.1.symm, h.2.symm⟩
    · simp [hle]
  · simp

theorem readExact_ok_length (f : FileState) (n : Nat) (buf : List Nat) (f1 : FileState)
    (h : readExact f n = Except.ok (buf, f1)) : buf.length = n := by
  rcases (readExact_ok_iff f n buf f1).mp h with ⟨-, hle, hbuf, -⟩
  subst hbuf
  simp [List.length_take, List.length_drop]
  omega

@[simp] theorem headerOf_unitcode (buf : List Nat) :
    (headerOf buf).unitcode = buf.getD 18 0 % 256 := rfl

@[simp] theorem headerOf_ntr_rom_size (buf : List Nat) :
    (headerOf buf).ntr_rom_size = readLE buf 128 4 := rfl

@[simp] theorem headerOf_nintendo_logo (buf : List Nat) :
    (headerOf buf).nintendo_logo = bufSlice buf 192 156 := rfl

@[simp] theorem headerOf_header_crc (buf : List Nat) :
    (headerOf buf).header_crc = readLE buf 350 2 := rfl

@[simp] theorem headerOf_ntr_twl_rom_size (buf : List Nat) :
    (headerOf buf).ntr_twl_rom_size = readLE buf 528 4 := rfl

theorem from_file_nofault (disk : List Nat) (h4 : 4096 ≤ disk.length) :
    NtrTwlHeader.from_file (mkFile disk) =
      if readLE (disk.take 4096) 350 2 = checksum (bufSlice (disk.take 4096) 0 0x15e) ∧
          checksum (bufSlice (disk.take 4096) 192 156) = 0xcf56
      then Except.ok (headerOf (disk.take 4096),
        { contents := disk, pos := 4096, faults := [] })
      else Except.error Error.badHeader := by
  have hre : readExact (mkFile disk) 4096 =
      Except.ok (disk.take 4096, { contents := disk, pos := 4096, faults := [] }) := by
    refine (readExact_ok_iff _ _ _ _).mpr ⟨rfl, ?_, by simp [mkFile], by simp [mkFile]⟩
    simpa [mkFile] using h4
  have hlen2 : (List.take 4096 disk).length = 4096 := by
    rw [List.length_take]
    omega
  have hdes : deserializeHeader (disk.take 4096) =
      Except.ok (headerOf (disk.take 4096)) := by
    unfold deserializeHeader
    rw [hlen2]
    simp
  unfold NtrTwlHeader.from_file
  rw [hre]
  simp only [hdes, NtrTwlHeader.is_logo_valid, headerOf_nintendo_logo, headerOf_header_crc]
  by_cases hA : readLE (disk.take 4096) 350 2 = checksum (bufSlice (disk.take 4096) 0 0x15e) <;>
    by_cases hB : checksum (bufSlice (disk.take 4096) 192 156) = 0xcf56 <;>
      simp [hA, hB]

theorem compute_trimmed_size_dual (f : FileState) (hdr : NtrTwlHeader)
    (h : hdr.unitcode ≠ 0) :
    NdsFile.compute_trimmed_size f hdr = Except.ok (hdr.ntr_twl_rom_size, f) := by
  unfold NdsFile.compute_trimmed_size
  rw [if_pos]
  simp [NtrTwlHeader.is_ntr_only, h]

theorem compute_trimmed_size_legacy (f : FileState) (hdr : NtrTwlHeader)
    (h0 : hdr.unitcode = 0) (hf : f.faults = [])
    (hlen : hdr.ntr_rom_size + 2 ≤ f.contents.length) :
    NdsFile.compute_trimmed_size f hdr =
      Except.ok
        ((if bufSlice f.contents hdr.ntr_rom_size 2 = [0x61, 0x63]
          then hdr.ntr_rom_size + 0x88 else hdr.ntr_rom_size),
         { contents := f.contents, pos := hdr.ntr_rom_size + 2, faults := [] }) := by
  have hcert : NdsFile.has_cert f hdr.ntr_rom_size =
      Except.ok (decide (bufSlice f.contents hdr.ntr_rom_size 2 = [0x61, 0x63]),
        { contents := f.contents, pos := hdr.ntr_rom_size + 2, faults := [] }) := by
    have hre : readExact (seek f hdr.ntr_rom_size) 2 =
        Except.ok (bufSlice f.contents hdr.ntr_rom_size 2,
          { contents := f.contents, pos := hdr.ntr_rom_size + 2, faults := [] }) := by
      refine (readExact_ok_iff _ _ _ _).mpr ⟨?_, ?_, ?_, ?_⟩ <;>
        simp [seek, hf, bufSlice, hlen]
    unfold NdsFile.has_cert
    rw [hre]
  unfold NdsFile.compute_trimmed_size
  rw [if_neg]
  · simp only [hcert]
    by_cases hm : bufSlice f.contents hdr.ntr_rom_size 2 = [0x61, 0x63] <;> simp [hm]
  · simp [NtrTwlHeader.is_ntr_only, h0]

theorem compute_trimmed_size_legacy_eof (f : FileState) (hdr : NtrTwlHeader)
    (h0 : hdr.unitcode = 0) (hf : headFault f.faults = none)
    (hlen : f.contents.length < hdr.ntr_rom_size + 2) :
    NdsFile.compute_trimmed_size f hdr = Except.error Error.alreadyTrimmed := by
  have hre : readExact (seek f hdr.ntr_rom_size) 2 =
      Except.error IOErrorKind.unexpectedEof := by
    unfold readExact
    rw [show headFault (seek f hdr.ntr_rom_size).faults = none from hf]
    rw [if_neg]
    simp [seek]
    omega
  have hcert : NdsFile.has_cert f hdr.ntr_rom_size =
      Except.error IOErrorKind.unexpectedEof := by
    unfold NdsFile.has_cert
    rw [hre]
  unfold NdsFile.compute_trimmed_size
  rw [if_neg]
  · simp only [hcert]
  · simp [NtrTwlHeader.is_ntr_only, h0]

theorem compute_trimmed_size_legacy_fault (f : FileState) (hdr : NtrTwlHeader)
    (k : IOErrorKind) (h0 : hdr.unitcode = 0) (hf : headFault f.faults = some k) :
    NdsFile.compute_trimmed_size f hdr =
      Except.error
        (if k = IOErrorKind.unexpectedEof then Error.alreadyTrimmed
         else Error.ioErr k) := by
  have hre : readExact (seek f hdr.ntr_rom_size) 2 = Except.error k := by
    unfold readExact
    rw [show headFault (seek f hdr.ntr_rom_size).faults = some k from hf]
  have hcert : NdsFile.has_cert f hdr.ntr_rom_size = Except.error k := by
    unfold NdsFile.has_cert
    rw [hre]
  unfold NdsFile.compute_trimmed_size
  rw [if_neg]
  · simp only [hcert]
    cases k <;> simp
  · simp [NtrTwlHeader.is_ntr_only, h0]

/-- C6: `checksum` computes exactly the reference algorithm of the spec
(accumulator `0xFFFF`, per-byte XOR into the low bits, eight
shift-and-conditionally-XOR-`0xA001` rounds), and its result always fits in
unsigned 16-bit arithmetic.  Being a Lean function, it is pure, deterministic
and total by construction. -/
theorem claim_C6_checksum_matches_reference (data : List Nat) :
    checksum data = checksumSpec data ∧ checksum data < 2 ^ 16 := by
  constructor
  · unfold checksum checksumSpec
    exact checksumGo_eq_spec data 0xffff
  · have h := checksum_aux_lt data 0xffff (by norm_num)
    have h2 : (2 : Nat) ^ 16 = 65536 := by norm_num
    rw [h2]
    unfold checksum
    exact h

/-- C2: for a legacy-only header (`unitcode = 0`), when the 2-byte probe at
offset `ntr_rom_size` succeeds, the trimmed size is `ntr_rom_size + 0x88`
exactly when the probed bytes are the certificate marker `[0x61, 0x63]`, and
`ntr_rom_size` otherwise. -/
theorem claim_C2_legacy_trim_size (hdr : NtrTwlHeader) (f : FileState)
    (h0 : hdr.unitcode = 0) (hf : f.faults = [])
    (hlen : hdr.ntr_rom_size + 2 ≤ f.contents.length) :
    NdsFile.compute_trimmed_size f hdr =
      Except.ok
        ((if bufSlice f.contents hdr.ntr_rom_size 2 = [0x61, 0x63]
          then hdr.ntr_rom_size + 0x88 else hdr.ntr_rom_size),
         { contents := f.contents, pos := hdr.ntr_rom_size + 2, faults := [] }) :=
  compute_trimmed_size_legacy f hdr h0 hf hlen

theorem claim_C2_witness :
    NdsFile.compute_trimmed_size
        { contents := [0x61, 0x63], pos := 0, faults := [] } sampleLegacyHeader =
      Except.ok (0x88, { contents := [0x61, 0x63], pos := 2, faults := [] }) ∧
    NdsFile.compute_trimmed_size
        { contents := [0x61, 0x64], pos := 0, faults := [] } sampleLegacyHeader =
      Except.ok (0, { contents := [0x61, 0x64], pos := 2, faults := [] }) := by
  constructor
  · have h := claim_C2_legacy_trim_size sampleLegacyHeader
      { contents := [0x61, 0x63], pos := 0, faults := [] } rfl rfl (by decide)
    rw [h]
    decide
  · have h := claim_C2_legacy_trim_size sampleLegacyHeader
      { contents := [0x61, 0x64], pos := 0, faults := [] } rfl rfl (by decide)
    rw [h]
    decide

/-- C3: for a dual-mode header (`unitcode ≠ 0`), the trimmed size is the
`ntr_twl_rom_size` field verbatim and the file state is returned unchanged —
no seek, no read, no fault-oracle consumption, i.e. no I/O at all. -/
theorem claim_C3_dual_trim_size (hdr : NtrTwlHeader) (f : FileState)
    (h : hdr.unitcode ≠ 0) :
    NdsFile.compute_trimmed_size f hdr = Except.ok (hdr.ntr_twl_rom_size, f) :=
  compute_trimmed_size_dual f hdr h

theorem claim_C3_witness :
    NdsFile.compute_trimmed_size
        { contents := [1, 2, 3], pos := 5, faults := [some (IOErrorKind.other 0)] }
        sampleDualHeader =
      Except.ok (77, { contents := [1, 2, 3], pos := 5, faults := [some (IOErrorKind.other 0)] }) :=
  claim_C3_dual_trim_size sampleDualHeader
    { contents := [1, 2, 3], pos := 5, faults := [some (IOErrorKind.other 0)] } (by decide)

/-- C4: during legacy-only trim-size computation, a probe read failing with
end-of-file (either because the file is too short for 2 bytes at
`ntr_rom_size`, or through an injected `UnexpectedEof` fault) yields the
already-trimmed condition, while a probe read failing with any other I/O
error kind propagates that kind as an I/O error. -/
theorem claim_C4_probe_error_mapping :
    (∀ (hdr : NtrTwlHeader) (f : FileState), hdr.unitcode = 0 →
        headFault f.faults = none → f.contents.length < hdr.ntr_rom_size + 2 →
        NdsFile.compute_trimmed_size f hdr = Except.error Error.alreadyTrimmed) ∧
    (∀ (hdr : NtrTwlHeader) (f : FileState), hdr.unitcode = 0 →
        headFault f.faults = some IOErrorKind.unexpectedEof →
        NdsFile.compute_trimmed_size f hdr = Except.error Error.alreadyTrimmed) ∧
    (∀ (hdr : NtrTwlHeader) (f : FileState) (k : IOErrorKind), hdr.unitcode = 0 →
        headFault f.faults = some k → k ≠ IOErrorKind.unexpectedEof →
        NdsFile.compute_trimmed_size f hdr = Except.error (Error.ioErr k)) := by
  refine ⟨fun hdr f h0 hf hlen => compute_trimmed_size_legacy_eof f hdr h0 hf hlen,
    fun hdr f h0 hf => ?_, fun hdr f k h0 hf hk => ?_⟩
  · have h := compute_trimmed_size_legacy_fault f hdr IOErrorKind.unexpectedEof h0 hf
    simpa using h
  · have h := compute_trimmed_size_legacy_fault f hdr k h0 hf
    rw [if_neg hk] at h
    exact h

theorem claim_C4_witness :
    NdsFile.compute_trimmed_size { contents := [], pos := 0, faults := [] }
        sampleLegacyHeader = Except.error Error.alreadyTrimmed ∧
    NdsFile.compute_trimmed_size
        { contents := [0, 0, 0, 0], pos := 0, faults := [some IOErrorKind.unexpectedEof] }
        sampleLegacyHeader = Except.error Error.alreadyTrimmed ∧
    NdsFile.compute_trimmed_size
        { contents := [0, 0, 0, 0], pos := 0, faults := [some (IOErrorKind.other 13)] }
        sampleLegacyHeader = Except.error (Error.ioErr (IOErrorKind.other 13)) :=
  ⟨claim_C4_probe_error_mapping.1 sampleLegacyHeader
      { contents := [], pos := 0, faults := [] } rfl rfl (by decide),
   claim_C4_probe_error_mapping.2.1 sampleLegacyHeader
      { contents := [0, 0, 0, 0], pos := 0, faults := [some IOErrorKind.unexpectedEof] } rfl rfl,
   claim_C4_probe_error_mapping.2.2 sampleLegacyHeader
      { contents := [0, 0, 0, 0], pos := 0, faults := [some (IOErrorKind.other 13)] }
      (IOErrorKind.other 13) rfl rfl (by decide)⟩

/-- C10: the in-place trim mutates only the underlying file contents
(truncating them to `trimmed_size` via `set_len`); the handle's recorded
`file_size` and `trimmed_size` fields — which the accessors return — as well
as the read position and fault oracle are left exactly as they were. -/
theorem claim_C10_trim_frame (nds : NdsFile) :
    ∃ nds2, NdsFile.trim nds = Except.ok nds2 ∧
      nds2.file_size = nds.file_size ∧
      nds2.trimmed_size = nds.trimmed_size ∧
      nds2.handle.pos = nds.handle.pos ∧
      nds2.handle.faults = nds.handle.faults ∧
      nds2.handle.contents = setLen nds.handle.contents nds.trimmed_size :=
  ⟨_, rfl, rfl, rfl, rfl, rfl, rfl⟩

/-- C8: copy-trim seeks the source handle back to offset 0 and succeeds with
a destination holding precisely the first `trimmed_size` bytes of the source
(`trimmed_size` bytes long whenever the source is long enough, as every
handle produced by `open` is); the source contents and the recorded sizes are
unchanged, and the handle position ends at `trimmed_size` — evidence that the
copy started from offset 0. -/
theorem claim_C8_copy_trim (nds : NdsFile)
    (h : nds.trimmed_size ≤ nds.handle.contents.length) :
    ∃ nds2,
      NdsFile.trim_with_name nds =
        Except.ok (nds.handle.contents.take nds.trimmed_size, nds2) ∧
      (nds.handle.contents.take nds.trimmed_size).length = nds.trimmed_size ∧
      nds2.handle.contents = nds.handle.contents ∧
      nds2.file_size = nds.file_size ∧
      nds2.trimmed_size = nds.trimmed_size ∧
      nds2.handle.pos = nds.trimmed_size := by
  have hlen : (nds.handle.contents.take nds.trimmed_size).length = nds.trimmed_size := by
    rw [List.length_take]
    omega
  refine ⟨{ nds with handle :=
      { contents := nds.handle.contents, pos := nds.trimmed_size,
        faults := nds.handle.faults } }, ?_, hlen, rfl, rfl, rfl, rfl⟩
  unfold NdsFile.trim_with_name seek
  simp [hlen]

theorem claim_C8_witness :
    ∃ nds2,
      NdsFile.trim_with_name
          { handle := { contents := [1, 2, 3, 4], pos := 3, faults := [] },
            file_size := 4, trimmed_size := 2 } =
        Except.ok ([1, 2], nds2) ∧
      ([1, 2] : List Nat).length = 2 ∧
      nds2.handle.contents = [1, 2, 3, 4] ∧
      nds2.file_size = 4 ∧
      nds2.trimmed_size = 2 ∧
      nds2.handle.pos = 2 :=
  claim_C8_copy_trim
    { handle := { contents := [1, 2, 3, 4], pos := 3, faults := [] },
      file_size := 4, trimmed_size := 2 } (by decide)

/-- C1: `from_file` accepts a 4096-byte header buffer exactly when the
checksum of bytes `[0, 0x15E)` equals the `header_crc` field (stored
little-endian at offset 350) and the checksum of the 156-byte logo region at
offset 192 equals the fixed constant `0xCF56`; when either comparison fails it
rejects with the malformed-header error `BadHeader`. -/
theorem claim_C1_header_validation (buf : List Nat) (hlen : buf.length = 4096) :
    ((readLE buf 350 2 = checksum (bufSlice buf 0 0x15e) ∧
        checksum (bufSlice buf 192 156) = 0xcf56) →
      NtrTwlHeader.from_file (mkFile buf) =
        Except.ok (headerOf buf, { contents := buf, pos := 4096, faults := [] })) ∧
    (¬(readLE buf 350 2 = checksum (bufSlice buf 0 0x15e) ∧
        checksum (bufSlice buf 192 156) = 0xcf56) →
      NtrTwlHeader.from_file (mkFile buf) = Except.error Error.badHeader) := by
  have ht : buf.take 4096 = buf := List.take_of_length_le (by omega)
  have h := from_file_nofault buf (by omega)
  rw [ht] at h
  constructor
  · intro hc
    rw [h, if_pos hc]
  · intro hc
    rw [h, if_neg hc]

theorem from_file_error_cases (f : FileState) (e : Error)
    (h : NtrTwlHeader.from_file f = Except.error e) :
    e = Error.badHeader ∨ ∃ k, e = Error.ioErr k := by
  unfold NtrTwlHeader.from_file at h
  split at h
  next k hr =>
    injection h with h2
    exact Or.inr ⟨k, h2.symm⟩
  next buf f1 hr =>
    have hblen : buf.length = 4096 := readExact_ok_length f 4096 buf f1 hr
    have hdes : deserializeHeader buf = Except.ok (headerOf buf) := by
      unfold deserializeHeader
      rw [hblen]
      simp
    simp only [hdes] at h
    split at h
    · injection h with h2
      exact Or.inl h2.symm
    · exact absurd h (by simp)

theorem compute_error_cases (f : FileState) (hdr : NtrTwlHeader) (e : Error)
    (h : NdsFile.compute_trimmed_size f hdr = Except.error e) :
    e = Error.alreadyTrimmed ∨ ∃ k, e = Error.ioErr k := by
  unfold NdsFile.compute_trimmed_size at h
  by_cases hu : hdr.is_ntr_only = false
  · rw [if_pos hu] at h
    exact absurd h (by simp)
  · rw [if_neg hu] at h
    rcases hc : NdsFile.has_cert f hdr.ntr_rom_size with k | bf
    · cases k
      · simp only [hc] at h
        injection h with h2
        exact Or.inl h2.symm
      · simp only [hc] at h
        injection h with h2
        exact Or.inr ⟨_, h2.symm⟩
    · rcases bf with ⟨hcb, f1⟩
      simp only [hc] at h
      exact absurd h (by simp)

theorem openFile_error_cases (f0 : FileState) (e : Error)
    (h : NdsFile.openFile f0 = Except.error e) :
    e = Error.badHeader ∨ e = Error.alreadyTrimmed ∨ ∃ k, e = Error.ioErr k := by
  unfold NdsFile.openFile at h
  rcases hf : NtrTwlHeader.from_file f0 with e1 | p
  · simp only [hf] at h
    injection h with h2
    rcases from_file_error_cases f0 e1 hf with h3 | ⟨k, h3⟩
    · exact Or.inl (h2 ▸ h3)
    · exact Or.inr (Or.inr ⟨k, h2 ▸ h3⟩)
  · rcases p with ⟨hdr, f1⟩
    simp only [hf] at h
    rcases hc : NdsFile.compute_trimmed_size f1 hdr with e2 | q
    · simp only [hc] at h
      injection h with h2
      rcases compute_error_cases f1 hdr e2 hc with h3 | ⟨k, h3⟩
      · exact Or.inr (Or.inl (h2 ▸ h3))
      · exact Or.inr (Or.inr ⟨k, h2 ▸ h3⟩)
    · rcases q with ⟨ts, f2⟩
      simp only [hc] at h
      split at h
      · injection h with h2
        exact Or.inr (Or.inl h2.symm)
      · exact absurd h (by simp)

theorem bufSlice_congr (l1 l2 : List Nat) (off len : Nat)
    (hag : ∀ i, off ≤ i → i < off + len → l1[i]? = l2[i]?) :
    bufSlice l1 off len = bufSlice l2 off len := by
  apply List.ext_getElem?
  intro n
  unfold bufSlice
  by_cases hn : n < len
  · rw [List.getElem?_take_of_lt hn, List.getElem?_take_of_lt hn,
      List.getElem?_drop, List.getElem?_drop]
    exact hag (off + n) (Nat.le_add_right off n) (by omega)
  · have e1 : ((l1.drop off).take len).length ≤ n := by
      rw [List.length_take]
      omega
    have e2 : ((l2.drop off).take len).length ≤ n := by
      rw [List.length_take]
      omega
    rw [List.getElem?_eq_none e1, List.getElem?_eq_none e2]

theorem zeros4096_length : zeros4096.length = 4096 := by
  unfold zeros4096
  rw [List.length_replicate]

theorem validBuf_length : validBuf.length = 4096 := by
  unfold validBuf
  rw [List.length_set, List.length_set, List.length_set, List.length_set,
    List.length_set, List.length_set, List.length_replicate]

set_option maxRecDepth 100000 in
theorem validBuf_cond1 : readLE validBuf 350 2 = checksum (bufSlice validBuf 0 0x15e) := by
  rw [checksum_eq_strict]
  decide

set_option maxRecDepth 100000 in
theorem validBuf_cond2 : checksum (bufSlice validBuf 192 156) = 0xcf56 := by
  rw [checksum_eq_strict]
  decide

theorem validBuf_from_file :
    NtrTwlHeader.from_file (mkFile validBuf) =
      Except.ok (headerOf validBuf, { contents := validBuf, pos := 4096, faults := [] }) := by
  have h := from_file_nofault validBuf (by rw [validBuf_length])
  rw [List.take_of_length_le (by rw [validBuf_length])] at h
  rw [h, if_pos ⟨validBuf_cond1, validBuf_cond2⟩]

theorem claim_C1_witness :
    NtrTwlHeader.from_file (mkFile validBuf) =
      Except.ok (headerOf validBuf, { contents := validBuf, pos := 4096, faults := [] }) ∧
    NtrTwlHeader.from_file (mkFile zeros4096) = Except.error Error.badHeader := by
  constructor
  · exact (claim_C1_header_validation validBuf validBuf_length).1
      ⟨validBuf_cond1, validBuf_cond2⟩
  · refine (claim_C1_header_validation zeros4096 zeros4096_length).2 ?_
    rw [checksum_eq_strict (bufSlice zeros4096 0 0x15e),
      checksum_eq_strict (bufSlice zeros4096 192 156)]
    decide

/-- C9: the header's self-reported `nintendo_logo_crc` field is never
compared during validation: for two 4096-byte buffers that agree everywhere
outside the field's two bytes (offsets 348 and 349), and whose
header-checksum comparison has the same truth value (the field's bytes do lie
inside the checksummed range `[0, 0x15E)`, which is what the claim's proviso
keeps fixed), `from_file` produces the same accept/reject outcome — only the
fixed constant `0xCF56` is checked against the computed logo checksum. -/
theorem claim_C9_logo_field_not_compared (buf1 buf2 : List Nat)
    (h1 : buf1.length = 4096) (h2 : buf2.length = 4096)
    (hagree : ∀ i, i < 4096 → i ≠ 348 → i ≠ 349 → buf1.getD i 0 = buf2.getD i 0)
    (hcond : (readLE buf1 350 2 = checksum (bufSlice buf1 0 0x15e)) ↔
      (readLE buf2 350 2 = checksum (bufSlice buf2 0 0x15e))) :
    ((∃ r, NtrTwlHeader.from_file (mkFile buf1) = Except.ok r) ↔
      (∃ r, NtrTwlHeader.from_file (mkFile buf2) = Except.ok r)) ∧
    (NtrTwlHeader.from_file (mkFile buf1) = Except.error Error.badHeader ↔
      NtrTwlHeader.from_file (mkFile buf2) = Except.error Error.badHeader) := by
  have hf1 := from_file_nofault buf1 (by omega)
  have hf2 := from_file_nofault buf2 (by omega)
  rw [List.take_of_length_le (by omega)] at hf1
  rw [List.take_of_length_le (by omega)] at hf2
  have hag' : ∀ i, 192 ≤ i → i < 348 → buf1[i]? = buf2[i]? := by
    intro i hi1 hi2
    have hlt1 : i < buf1.length := by omega
    have hlt2 : i < buf2.length := by omega
    have hg := hagree i (by omega) (by omega) (by omega)
    rw [List.getD_eq_getElem buf1 0 hlt1, List.getD_eq_getElem buf2 0 hlt2] at hg
    rw [List.getElem?_eq_getElem hlt1, List.getElem?_eq_getElem hlt2, hg]
  have hlogo : bufSlice buf1 192 156 = bufSlice buf2 192 156 :=
    bufSlice_congr buf1 buf2 192 156 (fun i hi1 hi2 => hag' i hi1 (by omega))
  rw [hf1, hf2, hlogo]
  by_cases hA : readLE buf1 350 2 = checksum (bufSlice buf1 0 0x15e)
  · have hA2 := hcond.mp hA
    by_cases hB : checksum (bufSlice buf2 192 156) = 0xcf56
    · rw [if_pos ⟨hA, hB⟩, if_pos ⟨hA2, hB⟩]
      exact ⟨⟨fun _ => ⟨_, rfl⟩, fun _ => ⟨_, rfl⟩⟩, by simp⟩
    · rw [if_neg (fun hc => hB hc.2), if_neg (fun hc => hB hc.2)]
      constructor
      · simp
      · simp
  · have hA2 : ¬ readLE buf2 350 2 = checksum (bufSlice buf2 0 0x15e) :=
      fun hx => hA (hcond.mpr hx)
    rw [if_neg (fun hc => hA hc.1), if_neg (fun hc => hA2 hc.1)]
    constructor
    · simp
    · simp

theorem getD_set_ne (l : List Nat) (a d i j : Nat) (h : i ≠ j) :
    (l.set i a).getD j d = l.getD j d := by
  rw [List.getD_eq_getElem?_getD, List.getD_eq_getElem?_getD, List.getElem?_set_ne h]

theorem zeros4096_set_length : (zeros4096.set 348 1).length = 4096 := by
  rw [List.length_set, zeros4096_length]

theorem claim_C9_witness :
    ((∃ r, NtrTwlHeader.from_file (mkFile zeros4096) = Except.ok r) ↔
      (∃ r, NtrTwlHeader.from_file (mkFile (zeros4096.set 348 1)) = Except.ok r)) ∧
    (NtrTwlHeader.from_file (mkFile zeros4096) = Except.error Error.badHeader ↔
      NtrTwlHeader.from_file (mkFile (zeros4096.set 348 1)) = Except.error Error.badHeader) :=
  claim_C9_logo_field_not_compared zeros4096 (zeros4096.set 348 1)
    zeros4096_length zeros4096_set_length
    (fun i _ h348 _ => (getD_set_ne zeros4096 1 0 348 i (fun hx => h348 hx.symm)).symm)
    (by
      rw [checksum_eq_strict (bufSlice zeros4096 0 0x15e),
        checksum_eq_strict (bufSlice (zeros4096.set 348 1) 0 0x15e)]
      decide)

theorem disk4100_length : disk4100.length = 4100 := by
  unfold disk4100
  rw [List.length_append, validBuf_length, List.length_replicate]

theorem disk4100_take : disk4100.take 4096 = validBuf := by
  unfold disk4100
  rw [← validBuf_length, List.take_left]

theorem disk4100_from_file :
    NtrTwlHeader.from_file (mkFile disk4100) =
      Except.ok (headerOf validBuf, { contents := disk4100, pos := 4096, faults := [] }) := by
  have h := from_file_nofault disk4100 (by rw [disk4100_length]; omega)
  rw [disk4100_take] at h
  rw [h, if_pos ⟨validBuf_cond1, validBuf_cond2⟩]

theorem headerOf_validBuf_unitcode : (headerOf validBuf).unitcode ≠ 0 := by decide

set_option maxRecDepth 100000 in
theorem headerOf_validBuf_twl_size : (headerOf validBuf).ntr_twl_rom_size = 4096 := by
  decide

theorem openFile_ok (f0 f1 f2 : FileState) (hdr : NtrTwlHeader) (ts : Nat)
    (hfrom : NtrTwlHeader.from_file f0 = Except.ok (hdr, f1))
    (hcomp : NdsFile.compute_trimmed_size f1 hdr = Except.ok (ts, f2))
    (hgt : ¬ f1.contents.length ≤ ts) :
    NdsFile.openFile f0 =
      Except.ok { handle := f2, file_size := f1.contents.length, trimmed_size := ts } := by
  unfold NdsFile.openFile
  rw [hfrom]
  simp only [hcomp]
  rw [if_neg hgt]

theorem disk4100_open : NdsFile.openFile (mkFile disk4100) = Except.ok ndsOpened := by
  have hl : ({ contents := disk4100, pos := 4096, faults := [] } :
      FileState).contents.length = 4100 := disk4100_length
  have hgt : ¬ ({ contents := disk4100, pos := 4096, faults := [] } :
      FileState).contents.length ≤ (headerOf validBuf).ntr_twl_rom_size := by
    rw [hl, headerOf_validBuf_twl_size]
    omega
  have h := openFile_ok (mkFile disk4100)
    { contents := disk4100, pos := 4096, faults := [] }
    { contents := disk4100, pos := 4096, faults := [] }
    (headerOf validBuf) (headerOf validBuf).ntr_twl_rom_size
    disk4100_from_file
    (compute_trimmed_size_dual
      { contents := disk4100, pos := 4096, faults := [] } (headerOf validBuf)
      headerOf_validBuf_unitcode)
    hgt
  rw [h, hl, headerOf_validBuf_twl_size]
  rfl

/-- C5: `open` fails with the already-trimmed error whenever the on-disk size
is at most the computed trimmed size; consequently every handle it returns
satisfies `trimmed_size < file_size`, and the in-place trim and the copy-trim
never re-check that invariant (they always succeed in the model, performing no
size comparison at all). -/
theorem claim_C5_already_trimmed_guard :
    (∀ (f0 f1 f2 : FileState) (hdr : NtrTwlHeader) (ts : Nat),
        NtrTwlHeader.from_file f0 = Except.ok (hdr, f1) →
        NdsFile.compute_trimmed_size f1 hdr = Except.ok (ts, f2) →
        f1.contents.length ≤ ts →
        NdsFile.openFile f0 = Except.error Error.alreadyTrimmed) ∧
    (∀ (f0 : FileState) (nds : NdsFile),
        NdsFile.openFile f0 = Except.ok nds → nds.trimmed_size < nds.file_size) ∧
    (∀ nds : NdsFile, ∃ nds2, NdsFile.trim nds = Except.ok nds2) ∧
    (∀ nds : NdsFile, ∃ r, NdsFile.trim_with_name nds = Except.ok r) := by
  refine ⟨?_, ?_, fun _ => ⟨_, rfl⟩, fun _ => ⟨_, rfl⟩⟩
  · intro f0 f1 f2 hdr ts hfrom hcomp hle
    unfold NdsFile.openFile
    rw [hfrom]
    simp only [hcomp]
    rw [if_pos hle]
  · intro f0 nds h
    unfold NdsFile.openFile at h
    rcases hf : NtrTwlHeader.from_file f0 with e1 | ⟨hdr, f1⟩
    · simp only [hf] at h
      exact absurd h (by simp)
    · simp only [hf] at h
      rcases hc : NdsFile.compute_trimmed_size f1 hdr with e2 | ⟨ts, f2⟩
      · simp only [hc] at h
        exact absurd h (by simp)
      · simp only [hc] at h
        split at h
        · exact absurd h (by simp)
        next hle =>
          injection h with h2
          subst h2
          simp only [gt_iff_lt]
          omega

theorem claim_C5_witness :
    NdsFile.openFile (mkFile validBuf) = Except.error Error.alreadyTrimmed ∧
    ndsOpened.trimmed_size < ndsOpened.file_size := by
  constructor
  · refine claim_C5_already_trimmed_guard.1 (mkFile validBuf)
      { contents := validBuf, pos := 4096, faults := [] }
      { contents := validBuf, pos := 4096, faults := [] }
      (headerOf validBuf) (headerOf validBuf).ntr_twl_rom_size
      validBuf_from_file
      (compute_trimmed_size_dual
        { contents := validBuf, pos := 4096, faults := [] }
        (headerOf validBuf) headerOf_validBuf_unitcode) ?_
    show validBuf.length ≤ (headerOf validBuf).ntr_twl_rom_size
    rw [validBuf_length, headerOf_validBuf_twl_size]
  · exact claim_C5_already_trimmed_guard.2.1 (mkFile disk4100) ndsOpened disk4100_open

theorem openFull_error_cases (f0 : FileState) (op md : Option IOErrorKind) (e : Error)
    (h : NdsFile.openFull f0 op md = Except.error e) :
    e = Error.badHeader ∨ e = Error.alreadyTrimmed ∨ ∃ k, e = Error.ioErr k := by
  unfold NdsFile.openFull at h
  rcases op with _ | k
  · rcases hf : NtrTwlHeader.from_file f0 with e1 | ⟨hdr, f1⟩
    · simp only [hf] at h
      injection h with h2
      rcases from_file_error_cases f0 e1 hf with h3 | ⟨k, h3⟩
      · exact Or.inl (h2 ▸ h3)
      · exact Or.inr (Or.inr ⟨k, h2 ▸ h3⟩)
    · simp only [hf] at h
      rcases md with _ | k
      · rcases hc : NdsFile.compute_trimmed_size f1 hdr with e2 | ⟨ts, f2⟩
        · simp only [hc] at h
          injection h with h2
          rcases compute_error_cases f1 hdr e2 hc with h3 | ⟨k, h3⟩
          · exact Or.inr (Or.inl (h2 ▸ h3))
          · exact Or.inr (Or.inr ⟨k, h2 ▸ h3⟩)
        · simp only [hc] at h
          split at h
          · injection h with h2
            exact Or.inr (Or.inl h2.symm)
          · exact absurd h (by simp)
      · injection h with h2
        exact Or.inr (Or.inr ⟨k, h2.symm⟩)
  · injection h with h2
    exact Or.inr (Or.inr ⟨k, h2.symm⟩)

/-- C7: every failure of the core operations surfaces as one of exactly three
error kinds — I/O, malformed header (`BadHeader`), or `AlreadyTrimmed` —
with every fallible syscall's outcome ranged over: the open and metadata
calls and the read faults for `open`, the `set_len` call for the in-place
trim, and the create/seek/copy calls for the copy-trim.  In particular the
`Deserialization` variant of the error enum is unreachable (the header read
always yields exactly 4096 bytes, on which bincode's fixed-width
deserialization cannot fail), and a trim failure is always an I/O error.
The fault-free instances coincide with `NdsFile.openFile`, `NdsFile.trim`
and `NdsFile.trim_with_name`. -/
theorem claim_C7_error_taxonomy :
    (∀ (f0 : FileState) (op md : Option IOErrorKind) (e : Error),
        NdsFile.openFull f0 op md = Except.error e →
        e = Error.badHeader ∨ e = Error.alreadyTrimmed ∨ ∃ k, e = Error.ioErr k) ∧
    (∀ (nds : NdsFile) (sl : Option IOErrorKind) (e : Error),
        NdsFile.trimFull nds sl = Except.error e → ∃ k, e = Error.ioErr k) ∧
    (∀ (nds : NdsFile) (cr sk cp : Option IOErrorKind) (e : Error),
        NdsFile.trim_with_nameFull nds cr sk cp = Except.error e →
        ∃ k, e = Error.ioErr k) ∧
    (∀ f0 : FileState, NdsFile.openFull f0 none none = NdsFile.openFile f0) ∧
    (∀ nds : NdsFile, NdsFile.trimFull nds none = NdsFile.trim nds) ∧
    (∀ nds : NdsFile,
        NdsFile.trim_with_nameFull nds none none none = NdsFile.trim_with_name nds) := by
  refine ⟨openFull_error_cases, ?_, ?_, fun _ => rfl, fun _ => rfl, fun _ => rfl⟩
  · intro nds sl e h
    rcases sl with _ | k
    · exact absurd h (by simp [NdsFile.trimFull])
    · injection h with h2
      exact ⟨k, h2.symm⟩
  · intro nds cr sk cp e h
    rcases cr with _ | k
    · rcases sk with _ | k
      · rcases cp with _ | k
        · exact absurd h (by simp [NdsFile.trim_with_nameFull])
        · injection h with h2
          exact ⟨k, h2.symm⟩
      · injection h with h2
        exact ⟨k, h2.symm⟩
    · injection h with h2
      exact ⟨k, h2.symm⟩

theorem claim_C7_witness :
    (Error.ioErr IOErrorKind.unexpectedEof = Error.badHeader ∨
     Error.ioErr IOErrorKind.unexpectedEof = Error.alreadyTrimmed ∨
     ∃ k, Error.ioErr IOErrorKind.unexpectedEof = Error.ioErr k) ∧
    (∃ k, Error.ioErr (IOErrorKind.other 5) = Error.ioErr k) ∧
    (∃ k, Error.ioErr (IOErrorKind.other 7) = Error.ioErr k) :=
  ⟨claim_C7_error_taxonomy.1 (mkFile []) none none
      (Error.ioErr IOErrorKind.unexpectedEof) (by decide),
   claim_C7_error_taxonomy.2.1
      { handle := { contents := [], pos := 0, faults := [] }, file_size := 1, trimmed_size := 0 }
      (some (IOErrorKind.other 5)) (Error.ioErr (IOErrorKind.other 5)) rfl,
   claim_C7_error_taxonomy.2.2.1
      { handle := { contents := [], pos := 0, faults := [] }, file_size := 1, trimmed_size := 0 }
      none (some (IOErrorKind.other 7)) none (Error.ioErr (IOErrorKind.other 7)) rfl⟩
